import Mathlib

set_option maxHeartbeats 1000000

namespace Dashboard

/-! Shallow embedding of src/app/backend/client/manager.go: the per-request
credential-resolution and client-provisioning core of the dashboard.
External collaborators (client-go, clientcmd, the cluster control plane,
the token decryption manager) are modelled as oracles carried in an
environment record; everything else is translated directly from the Go
source. -/

/-- Error kinds of the errors collaborator package and of cluster errors
(BadRequest, Unauthorized, Invalid, Forbidden as checked by
k8serrors.IsForbidden, and any other error). -/
inductive ErrKind where
  | badRequest
  | unauthorized
  | invalid
  | forbidden
  | other
deriving DecidableEq, Repr

/-- An error value: a kind together with its message text. -/
structure Err where
  kind : ErrKind
  message : String
deriving DecidableEq, Repr

/-- Modelled from the spec: errors.NewBadRequest from the repository's
errors package (not under src/) wraps a message as a BadRequest error. -/
def NewBadRequest (msg : String) : Err := { kind := ErrKind.badRequest, message := msg }

/-- Modelled from the spec: errors.NewUnauthorized from the repository's
errors package (not under src/) wraps a message as an Unauthorized error. -/
def NewUnauthorized (msg : String) : Err := { kind := ErrKind.unauthorized, message := msg }

/-- Modelled from the spec: errors.NewInvalid from the repository's
errors package (not under src/) wraps a message as an Invalid error. -/
def NewInvalid (msg : String) : Err := { kind := ErrKind.invalid, message := msg }

/-- Modelled from the spec: errors.MsgLoginUnauthorizedError, the fixed
login-required message carried by the Unauthorized failure of the
credential extractor; the constant lives in the repository's errors
package, outside src/. -/
def MsgLoginUnauthorizedError : String := "MSG_LOGIN_UNAUTHORIZED_ERROR"

/-- Forbidden check on an error, mirroring k8serrors.IsForbidden. -/
def Err.isForbidden (e : Err) : Bool := e.kind = ErrKind.forbidden

/-- clientcmd api.AuthInfo as used by manager.go: bearer token plus the
impersonation fields. Zero values mirror Go's zero values (empty string,
nil slice, nil map). -/
structure AuthInfo where
  token : String := ""
  impersonate : String := ""
  impersonateGroups : List String := []
  impersonateUserExtra : List (String × List String) := []
deriving DecidableEq, Repr

/-- An inbound request as far as manager.go reads it: whether it arrived
over TLS (req.Request.TLS != nil) and its header map. Go's http.Header is
a map from a header name to the ordered list of its values; the names are
unique, which theorems assume via a Nodup hypothesis where it matters. -/
structure Request where
  tls : Bool
  headers : List (String × List String)
deriving DecidableEq, Repr

/-- Connection configuration (rest.Config) fields read or written by
manager.go. -/
structure RestConfig where
  host : String
  caFile : String
  caData : String
  insecure : Bool
  qps : Nat
  burst : Nat
  contentType : String
  userAgent : String
deriving DecidableEq, Repr

/-- The single named cluster entry written by buildCmdConfig. -/
structure CmdCluster where
  server : String
  certificateAuthority : String
  certificateAuthorityData : String
  insecureSkipTLSVerify : Bool
deriving DecidableEq, Repr

/-- The clientcmd config assembled by buildCmdConfig: one cluster, one
auth info and one context, all registered under the fixed default name. -/
structure CmdConfig where
  clusterName : String
  cluster : CmdCluster
  authInfoName : String
  authInfo : AuthInfo
  contextCluster : String
  contextAuthInfo : String
  currentContext : String
deriving DecidableEq, Repr

/-- A typed API client handle: either the process-wide insecure client or
a secure client freshly built from a per-request configuration. -/
inductive ClientHandle where
  | insecure
  | secure (cfg : RestConfig)
deriving DecidableEq, Repr

/-- The resource verber composed by VerberClient out of the three
resolved clients. -/
structure Verber where
  k8s : ClientHandle
  ext : ClientHandle
  plugin : ClientHandle
deriving DecidableEq, Repr

/-- Outcome of running a Go function that may dereference a nil pointer:
either a normal return value or a runtime panic. -/
inductive RunResult (α : Type) where
  | ok (a : α)
  | panic
deriving DecidableEq, Repr

/-- Manager state plus the external world: the args.Holder policy flags
(repository args package, outside src/), the manager's own fields, and
oracles standing for the external collaborators (clientcmd loading,
clientcmd ClientConfig resolution, the three client constructors, the
cluster's access-review, version and token-review endpoints, and the
extensions REST sub-client). -/
structure Env where
  enableInsecureLogin : Bool
  enableSkipLogin : Bool
  certFile : String
  keyFile : String
  kubeConfigPath : String
  apiserverHost : String
  inClusterConfig : Option RestConfig
  insecureConfig : RestConfig
  tokenManager : Option (String → Except Err AuthInfo)
  clientcmdBuild : Except Err RestConfig
  clientConfig : CmdConfig → Except Err RestConfig
  newForConfig : RestConfig → Except Err Unit
  newAPIExtForConfig : RestConfig → Except Err Unit
  newPluginForConfig : RestConfig → Except Err Unit
  ssar : ClientHandle → Except Err Bool
  extRestClient : Except Err Unit
  serverVersion : RestConfig → Except Err Unit
  tokenReview : RestConfig → String → Except Err String

/-- Dashboard UI default values for client configs (constants of
manager.go). -/
def DefaultQPS : Nat := 1000000

/-- High default burst, mirroring DefaultBurst = 1e6. -/
def DefaultBurst : Nat := 1000000

/-- Kubernetes protobuf content type used by default. -/
def DefaultContentType : String := "application/vnd.kubernetes.protobuf"

/-- Default cluster/context/auth name set in the clientcmd config. -/
def DefaultCmdConfigName : String := "kubernetes"

/-- Header name that contains the token used for authorization. -/
def JWETokenHeader : String := "jweToken"

/-- Default http header for user-agent. -/
def DefaultUserAgent : String := "dashboard"

/-- Impersonation extra header name start. -/
def ImpersonateUserExtraHeader : String := "Impersonate-Extra-"

/-- VERSION of this binary. -/
def Version : String := "UNKNOWN"

/-- Whether the string p begins the string s, mirroring strings.HasPrefix
(the headers involved are ASCII, so Go's byte comparison coincides with
character comparison). -/
def hasPrefStr (p s : String) : Bool := p.data.isPrefixOf s.data

/-- Dropping the first n characters of a string, mirroring Go slicing
s[n:] and strings.TrimPrefix on ASCII text. -/
def dropStr (s : String) (n : Nat) : String := ⟨s.data.drop n⟩

/-- Lookup of a header name in a header map. -/
def headerLookup (name : String) : List (String × List String) → Option (List String)
  | [] => none
  | (n, vs) :: rest => if n = name then some vs else headerLookup name rest

/-- req.HeaderParameter(name): the first value of the header, or the
empty string when the header is absent or has no values (http.Header.Get). -/
def headerParameter (req : Request) (name : String) : String :=
  match headerLookup name req.headers with
  | some (v :: _) => v
  | some [] => ""
  | none => ""

/-- req.Request.Header[name]: the full ordered value list of the header,
nil (empty) when absent. -/
def headerValues (req : Request) (name : String) : List String :=
  (headerLookup name req.headers).getD []

/-- extractTokenFromHeader: the remainder after a "Bearer " marker, or
the empty string when the Authorization header does not carry one. -/
def extractTokenFromHeader (authHeader : String) : String :=
  if hasPrefStr "Bearer " authHeader then dropStr authHeader ("Bearer ".length) else ""

/-- extractAuthInfo: extracts authorization information from the request
header. The Authorization header takes precedence over the jweToken
header; with a bearer token present, impersonation headers are folded
into the descriptor; otherwise the configured token manager decrypts the
jweToken header, and failing every source the fixed Unauthorized error
is returned. -/
def extractAuthInfo (E : Env) (req : Request) : Except Err AuthInfo :=
  let authHeader := headerParameter req "Authorization"
  let impersonationHeader := headerParameter req "Impersonate-User"
  let jweToken := headerParameter req JWETokenHeader
  let token := extractTokenFromHeader authHeader
  if 0 < token.length then
    let authInfo : AuthInfo :=
      if 0 < impersonationHeader.length then
        { token := token
          impersonate := impersonationHeader
          impersonateGroups := headerValues req "Impersonate-Group"
          impersonateUserExtra := req.headers.filterMap (fun h =>
            if hasPrefStr ImpersonateUserExtraHeader h.1 then
              some (dropStr h.1 ImpersonateUserExtraHeader.length, h.2)
            else none) }
      else { token := token }
    Except.ok authInfo
  else
    match E.tokenManager with
    | some decrypt =>
        if 0 < jweToken.length then decrypt jweToken
        else Except.error (NewUnauthorized MsgLoginUnauthorizedError)
    | none => Except.error (NewUnauthorized MsgLoginUnauthorizedError)

/-- containsAuthInfo: checks whether the request headers contain any auth
information, without parsing. -/
def containsAuthInfo (req : Request) : Bool :=
  0 < (headerParameter req "Authorization").length
    || 0 < (headerParameter req JWETokenHeader).length

/-- isLoginEnabled: the request arrived over TLS or insecure login is
explicitly allowed. -/
def isLoginEnabled (E : Env) (req : Request) : Bool :=
  req.tls || E.enableInsecureLogin

/-- isSecureModeEnabled: secure mode means the request must be
authenticated and the dashboard service account's privileges cannot be
used. -/
def isSecureModeEnabled (E : Env) (req : Request) : Bool :=
  if isLoginEnabled E req && !E.enableSkipLogin then true
  else isLoginEnabled E req && E.enableSkipLogin && containsAuthInfo req

/-- initConfig: applies the fixed tuning defaults to a config. -/
def initConfig (cfg : RestConfig) : RestConfig :=
  { cfg with
    qps := DefaultQPS
    burst := DefaultBurst
    contentType := DefaultContentType
    userAgent := DefaultUserAgent ++ "/" ++ Version }

/-- buildConfigFromFlags: with an explicit kubeconfig path or apiserver
host the external clientcmd loader decides; otherwise the in-cluster
config captured at startup is used when present, and with no source at
all the Invalid error is returned. -/
def buildConfigFromFlags (E : Env) : Except Err RestConfig :=
  if E.kubeConfigPath ≠ "" ∨ E.apiserverHost ≠ "" then E.clientcmdBuild
  else
    match E.inClusterConfig with
    | some cfg => Except.ok cfg
    | none => Except.error (NewInvalid "could not create client config")

/-- buildCmdConfig: assembles the single-name clientcmd config from an
auth info and a rest config. -/
def buildCmdConfig (authInfo : AuthInfo) (cfg : RestConfig) : CmdConfig :=
  { clusterName := DefaultCmdConfigName
    cluster :=
      { server := cfg.host
        certificateAuthority := cfg.caFile
        certificateAuthorityData := cfg.caData
        insecureSkipTLSVerify := cfg.insecure }
    authInfoName := DefaultCmdConfigName
    authInfo := authInfo
    contextCluster := DefaultCmdConfigName
    contextAuthInfo := DefaultCmdConfigName
    currentContext := DefaultCmdConfigName }

/-- ClientCmdConfig on a non-nil request: extract the auth info, build
the base config from the bootstrap flags, and assemble the clientcmd
config. -/
def clientCmdConfigReq (E : Env) (req : Request) : Except Err CmdConfig :=
  match extractAuthInfo E req with
  | Except.error e => Except.error e
  | Except.ok authInfo =>
    match buildConfigFromFlags E with
    | Except.error e => Except.error e
    | Except.ok cfg => Except.ok (buildCmdConfig authInfo cfg)

/-- secureConfig: resolve the clientcmd config into a concrete rest
config (external clientcmd resolution) and apply the tuning defaults. -/
def secureConfig (E : Env) (req : Request) : Except Err RestConfig :=
  match clientCmdConfigReq E req with
  | Except.error e => Except.error e
  | Except.ok cmdCfg =>
    match E.clientConfig cmdCfg with
    | Except.error e => Except.error e
    | Except.ok cfg => Except.ok (initConfig cfg)

/-- secureClient: a kubernetes client for the secure per-request config. -/
def secureClient (E : Env) (req : Request) : Except Err ClientHandle :=
  match secureConfig E req with
  | Except.error e => Except.error e
  | Except.ok cfg =>
    match E.newForConfig cfg with
    | Except.error e => Except.error e
    | Except.ok _ => Except.ok (ClientHandle.secure cfg)

/-- secureAPIExtensionsClient: an API extensions client for the secure
per-request config. -/
def secureAPIExtensionsClient (E : Env) (req : Request) : Except Err ClientHandle :=
  match secureConfig E req with
  | Except.error e => Except.error e
  | Except.ok cfg =>
    match E.newAPIExtForConfig cfg with
    | Except.error e => Except.error e
    | Except.ok _ => Except.ok (ClientHandle.secure cfg)

/-- securePluginClient: a plugin client for the secure per-request
config. -/
def securePluginClient (E : Env) (req : Request) : Except Err ClientHandle :=
  match secureConfig E req with
  | Except.error e => Except.error e
  | Except.ok cfg =>
    match E.newPluginForConfig cfg with
    | Except.error e => Except.error e
    | Except.ok _ => Except.ok (ClientHandle.secure cfg)

/-- InsecureClient: accessor to the singleton insecure client. -/
def InsecureClient (_ : Env) : ClientHandle := ClientHandle.insecure

/-- InsecureAPIExtensionsClient: accessor to the singleton insecure API
extensions client. -/
def InsecureAPIExtensionsClient (_ : Env) : ClientHandle := ClientHandle.insecure

/-- InsecurePluginClient: accessor to the singleton insecure plugin
client. -/
def InsecurePluginClient (_ : Env) : ClientHandle := ClientHandle.insecure

/-- InsecureConfig: accessor to the singleton insecure config. -/
def InsecureConfig (E : Env) : RestConfig := E.insecureConfig

/-- Client: secure client in secure mode, the insecure singleton
otherwise; a nil request fails with BadRequest. -/
def Client (E : Env) : Option Request → Except Err ClientHandle
  | none => Except.error (NewBadRequest "request can not be nil")
  | some req =>
    if isSecureModeEnabled E req then secureClient E req
    else Except.ok (InsecureClient E)

/-- APIExtensionsClient: secure API extensions client in secure mode, the
insecure singleton otherwise; a nil request fails with BadRequest. -/
def APIExtensionsClient (E : Env) : Option Request → Except Err ClientHandle
  | none => Except.error (NewBadRequest "request can not be nil!")
  | some req =>
    if isSecureModeEnabled E req then secureAPIExtensionsClient E req
    else Except.ok (InsecureAPIExtensionsClient E)

/-- PluginClient: secure plugin client in secure mode, the insecure
singleton otherwise; a nil request fails with BadRequest. -/
def PluginClient (E : Env) : Option Request → Except Err ClientHandle
  | none => Except.error (NewBadRequest "request can not be nil!")
  | some req =>
    if isSecureModeEnabled E req then securePluginClient E req
    else Except.ok (InsecurePluginClient E)

/-- Config: secure per-request config in secure mode, the insecure
singleton config otherwise; a nil request fails with BadRequest. -/
def Config (E : Env) : Option Request → Except Err RestConfig
  | none => Except.error (NewBadRequest "request can not be nil")
  | some req =>
    if isSecureModeEnabled E req then secureConfig E req
    else Except.ok (InsecureConfig E)

/-- ClientCmdConfig: no nil check is performed; extractAuthInfo reads the
headers of a nil request, a nil-pointer dereference at runtime. -/
def ClientCmdConfig (E : Env) : Option Request → RunResult (Except Err CmdConfig)
  | none => RunResult.panic
  | some req => RunResult.ok (clientCmdConfigReq E req)

/-- CanI: extract the auth info (a nil request is dereferenced here, a
runtime panic), fail closed when no descriptor was extracted while TLS
certificate material is configured, then resolve a client and submit the
self subject access review, converting every error into a denial. -/
def CanI (E : Env) : Option Request → RunResult Bool
  | none => RunResult.panic
  | some req =>
    let info := (extractAuthInfo E req).toOption
    if info = none ∧ E.certFile ≠ "" ∧ E.keyFile ≠ "" then RunResult.ok false
    else
      match Client E (some req) with
      | Except.error _ => RunResult.ok false
      | Except.ok client =>
        match E.ssar client with
        | Except.error _ => RunResult.ok false
        | Except.ok allowed => RunResult.ok allowed

/-- VerberClient: resolves the three clients plus the extensions REST
sub-client and composes the resource verber; the first failure
propagates. -/
def VerberClient (E : Env) (req : Option Request) : Except Err Verber :=
  match Client E req with
  | Except.error e => Except.error e
  | Except.ok k8s =>
    match APIExtensionsClient E req with
    | Except.error e => Except.error e
    | Except.ok ext =>
      match PluginClient E req with
      | Except.error e => Except.error e
      | Except.ok plugin =>
        match E.extRestClient with
        | Except.error e => Except.error e
        | Except.ok _ => Except.ok { k8s := k8s, ext := ext, plugin := plugin }

/-- Character class of the username regex: RE2 word characters (ASCII
letters, digits and the underscore) plus the hyphen, the one set used by
all four groups of the pattern. -/
def isW (c : Char) : Bool := c.isAlphanum || c == '_' || c == '-'

/-- Matching the tail of the username pattern at the head of a character
list: k remaining colon-separated groups after the current one; returns
the text of the last group on success. Greedy runs over a class that
excludes the colon make the match at a given start position unique, so
this models RE2 exactly for this pattern. -/
def segName : Nat → List Char → Option (List Char)
  | 0, cs =>
    let run := cs.takeWhile isW
    if run.isEmpty then none else some run
  | k + 1, cs =>
    let run := cs.takeWhile isW
    if run.isEmpty then none
    else
      match cs.dropWhile isW with
      | [] => none
      | c :: rest => if c = ':' then segName k rest else none

/-- Leftmost unanchored search for the four-group username pattern,
returning the capture of the final name group. -/
def findMatch : List Char → Option (List Char)
  | [] => none
  | c :: cs =>
    match segName 3 (c :: cs) with
    | some r => some r
    | none => findMatch cs

/-- getUsername: the name group of the first match of the four-group
service account pattern, or the input unchanged when the pattern does not
occur. -/
def getUsername (name : String) : String :=
  match findMatch name.data with
  | some r => ⟨r⟩
  | none => name

/-- Literal chunk of the error-username regex before the captured
group. -/
def userMark : List Char := " User \"".data

/-- Literal chunk of the error-username regex after the captured
group. -/
def cannotMark : List Char := "\" cannot ".data

/-- All decompositions s = pre ++ pat ++ post, in order of increasing
length of pre. -/
def splits (pat s : List Char) : List (List Char × List Char) :=
  (List.range (s.length + 1)).filterMap (fun i =>
    if pat.isPrefixOf (s.drop i) then some (s.take i, s.drop (i + pat.length)) else none)

/-- getUsernameFromError: the anchored regex replaces the whole error
text by its captured user name when the text matches, and leaves it
unchanged otherwise. The dot of the pattern excludes newlines, the
leading greedy run picks the rightmost viable user marker, and the
greedy capture extends to the last cannot marker after it. -/
def getUsernameFromError (msg : String) : String :=
  if msg.data.contains '\n' then msg
  else
    let cands := (splits userMark msg.data).filterMap (fun pp =>
      ((splits cannotMark pp.2).getLast?).map (fun bq => bq.1))
    match cands.getLast? with
    | some b => ⟨b⟩
    | none => msg

/-- HasAccess: build a secure config for the supplied auth info, create a
client, probe the server version, then submit a token self-review; a
Forbidden version probe yields the derived username together with the
error, a Forbidden token review yields the derived username with no
error, any other error yields an empty username with the error, and on
success the structured username is parsed for display. -/
def HasAccess (E : Env) (authInfo : AuthInfo) : String × Option Err :=
  match buildConfigFromFlags E with
  | Except.error e => ("", some e)
  | Except.ok cfg =>
    match E.clientConfig (buildCmdConfig authInfo cfg) with
    | Except.error e => ("", some e)
    | Except.ok cfg2 =>
      match E.newForConfig cfg2 with
      | Except.error e => ("", some e)
      | Except.ok _ =>
        match E.serverVersion cfg2 with
        | Except.error e =>
            if e.isForbidden then (getUsernameFromError e.message, some e)
            else ("", some e)
        | Except.ok _ =>
          match E.tokenReview cfg2 authInfo.token with
          | Except.error e =>
              if e.isForbidden then (getUsernameFromError e.message, none)
              else ("", some e)
          | Except.ok username => (getUsername username, none)

/-- Decidable equality of Except values over decidable components, used
to evaluate the embedding at concrete inputs. -/
instance {ε α : Type} [DecidableEq ε] [DecidableEq α] : DecidableEq (Except ε α) := fun a b =>
  match a, b with
  | Except.error e, Except.error f =>
    if h : e = f then isTrue (h ▸ rfl) else isFalse (fun hc => h (Except.error.inj hc))
  | Except.error _, Except.ok _ => isFalse (fun hc => Except.noConfusion hc)
  | Except.ok _, Except.error _ => isFalse (fun hc => Except.noConfusion hc)
  | Except.ok x, Except.ok y =>
    if h : x = y then isTrue (h ▸ rfl) else isFalse (fun hc => h (Except.ok.inj hc))

/-- An empty rest config used as the value of external-oracle results in
concrete instantiations. -/
def emptyRestConfig : RestConfig :=
  { host := "", caFile := "", caData := "", insecure := false,
    qps := 0, burst := 0, contentType := "", userAgent := "" }

/-- A concrete environment with benign oracles, used to instantiate
theorems at concrete inputs. -/
def baseEnv : Env :=
  { enableInsecureLogin := false
    enableSkipLogin := false
    certFile := ""
    keyFile := ""
    kubeConfigPath := ""
    apiserverHost := "http://localhost:8080"
    inClusterConfig := none
    insecureConfig := emptyRestConfig
    tokenManager := none
    clientcmdBuild := Except.ok emptyRestConfig
    clientConfig := fun _ => Except.ok emptyRestConfig
    newForConfig := fun _ => Except.ok ()
    newAPIExtForConfig := fun _ => Except.ok ()
    newPluginForConfig := fun _ => Except.ok ()
    ssar := fun _ => Except.ok true
    extRestClient := Except.ok ()
    serverVersion := fun _ => Except.ok ()
    tokenReview := fun _ _ => Except.ok "" }

/-- A token manager oracle that decrypts every opaque token to a fixed
descriptor. -/
def decryptZ : String → Except Err AuthInfo := fun _ => Except.ok { token := "zzz" }

/-- The base environment with the decrypting token manager installed. -/
def envDecrypt : Env := { baseEnv with tokenManager := some decryptZ }

/-- A request whose Authorization header is exactly the bearer marker
with an empty remainder, alongside an opaque token header. -/
def reqBearerEmptyJwe : Request :=
  { tls := true, headers := [("Authorization", ["Bearer "]), ("jweToken", ["x"])] }

/-- A request carrying a bearer token and an opaque token header. -/
def reqBearerAbc : Request :=
  { tls := true, headers := [("Authorization", ["Bearer abc"]), ("jweToken", ["x"])] }

/-- A request carrying a bearer token together with the full set of
impersonation headers of the spec examples. -/
def reqImpersonate : Request :=
  { tls := true
    headers := [("Authorization", ["Bearer abc"]),
                ("Impersonate-User", ["alice"]),
                ("Impersonate-Group", ["g1", "g2"]),
                ("Impersonate-Extra-reason", ["audit", "followup"])] }

/-- A Forbidden error as the cluster returns it. -/
def errForbidden : Err :=
  { kind := ErrKind.forbidden
    message := "pods is forbidden: User \"system:serviceaccount:kube-system:dashboard\" cannot list resource" }

/-- The base environment whose server-version probe is denied with a
Forbidden error. -/
def envForbidden : Env := { baseEnv with serverVersion := fun _ => Except.error errForbidden }

/-- A request carrying a non-bearer Authorization header and no opaque
token header. -/
def reqBasic : Request := { tls := true, headers := [("Authorization", ["Basic dXNlcg=="])] }

/-- The base environment with skip-login allowed. -/
def envSkip : Env := { baseEnv with enableSkipLogin := true }

/-! Helper lemmas about strings and headers. -/

theorem strLength_data (s : String) : s.length = s.data.length := rfl

theorem length_pos_iff (s : String) : 0 < s.length ↔ s ≠ "" := by
  rw [strLength_data, List.length_pos]
  constructor
  · intro h he
    apply h
    rw [he]
  · intro h hd
    apply h
    apply String.ext
    rw [hd]

/-- C1: the Mode Decider selects secure mode iff login is enabled and
skip-login is not allowed, or login is enabled, skip-login is allowed
and the request carries a credential header per the lightweight
existence check; with login not enabled (no TLS and insecure login not
allowed) the decision is insecure regardless of the other inputs. -/
theorem isSecureModeEnabled_spec (E : Env) (req : Request) :
    (isSecureModeEnabled E req = true ↔
      ((isLoginEnabled E req = true ∧ E.enableSkipLogin = false) ∨
       (isLoginEnabled E req = true ∧ E.enableSkipLogin = true ∧
        containsAuthInfo req = true))) ∧
    (req.tls = false → E.enableInsecureLogin = false →
      isSecureModeEnabled E req = false) := by
  constructor
  · cases h1 : isLoginEnabled E req <;> cases h2 : E.enableSkipLogin <;>
      cases h3 : containsAuthInfo req <;>
      simp [isSecureModeEnabled, h1, h2, h3]
  · intro h1 h2
    simp [isSecureModeEnabled, isLoginEnabled, h1, h2]

/-- Witness for C1: with no TLS and insecure login not allowed the
decision is insecure. -/
theorem isSecureModeEnabled_spec_witness :
    isSecureModeEnabled baseEnv { tls := false, headers := [] } = false :=
  (isSecureModeEnabled_spec baseEnv { tls := false, headers := [] }).2 rfl rfl

/-- Unfolding of CanI on a non-nil request. -/
theorem CanI_some (E : Env) (req : Request) :
    CanI E (some req) =
      if (extractAuthInfo E req).toOption = none ∧ E.certFile ≠ "" ∧ E.keyFile ≠ "" then
        RunResult.ok false
      else
        match Client E (some req) with
        | Except.error _ => RunResult.ok false
        | Except.ok client =>
          match E.ssar client with
          | Except.error _ => RunResult.ok false
          | Except.ok allowed => RunResult.ok allowed := rfl

/-- C2: CanI always returns a boolean; with no extracted descriptor and
TLS certificate material configured it fails closed; an error from
client resolution or from the access-review submission yields false; and
otherwise it returns exactly the cluster verdict. -/
theorem CanI_spec (E : Env) (req : Request) :
    (∃ b, CanI E (some req) = RunResult.ok b) ∧
    ((extractAuthInfo E req).toOption = none → E.certFile ≠ "" → E.keyFile ≠ "" →
      CanI E (some req) = RunResult.ok false) ∧
    (∀ e, Client E (some req) = Except.error e → CanI E (some req) = RunResult.ok false) ∧
    (∀ c e, Client E (some req) = Except.ok c → E.ssar c = Except.error e →
      CanI E (some req) = RunResult.ok false) ∧
    (∀ c b, ¬((extractAuthInfo E req).toOption = none ∧ E.certFile ≠ "" ∧ E.keyFile ≠ "") →
      Client E (some req) = Except.ok c → E.ssar c = Except.ok b →
      CanI E (some req) = RunResult.ok b) := by
  refine ⟨?_, ?_, ?_, ?_, ?_⟩
  · rw [CanI_some]
    split
    · exact ⟨false, rfl⟩
    · cases hcl : Client E (some req) with
      | error e => exact ⟨false, by simp only [hcl]⟩
      | ok c =>
        cases hs : E.ssar c with
        | error e => exact ⟨false, by simp only [hcl, hs]⟩
        | ok b => exact ⟨b, by simp only [hcl, hs]⟩
  · intro h1 h2 h3
    rw [CanI_some, if_pos ⟨h1, h2, h3⟩]
  · intro e he
    rw [CanI_some]
    split
    · rfl
    · simp only [he]
  · intro c e hcl hs
    rw [CanI_some]
    split
    · rfl
    · simp only [hcl, hs]
  · intro c b hn hcl hs
    rw [CanI_some, if_neg hn]
    simp only [hcl, hs]

/-- Witness for C2: with skip-login in force and a clean request the
cluster verdict is returned unchanged. -/
theorem CanI_spec_witness :
    CanI baseEnv (some { tls := false, headers := [] }) = RunResult.ok true :=
  (CanI_spec baseEnv { tls := false, headers := [] }).2.2.2.2
    ClientHandle.insecure true (by decide) (by decide) (by decide)

/-- C6 (amended): Client, APIExtensionsClient, PluginClient and Config
validate the request handle and fail with BadRequest on a nil request,
VerberClient fails with the same BadRequest through its first delegated
call, while CanI and ClientCmdConfig perform no nil check and
dereference the nil request. -/
theorem nil_request_handling (E : Env) :
    Client E none = Except.error (NewBadRequest "request can not be nil") ∧
    APIExtensionsClient E none = Except.error (NewBadRequest "request can not be nil!") ∧
    PluginClient E none = Except.error (NewBadRequest "request can not be nil!") ∧
    Config E none = Except.error (NewBadRequest "request can not be nil") ∧
    VerberClient E none = Except.error (NewBadRequest "request can not be nil") ∧
    CanI E none = RunResult.panic ∧
    ClientCmdConfig E none = RunResult.panic :=
  ⟨rfl, rfl, rfl, rfl, rfl, rfl, rfl⟩

/-- Witness for C6 (amended): the nil-request outcomes at the concrete
base environment. -/
theorem nil_request_handling_witness :
    Client baseEnv none = Except.error (NewBadRequest "request can not be nil") ∧
    CanI baseEnv none = RunResult.panic :=
  ⟨(nil_request_handling baseEnv).1, (nil_request_handling baseEnv).2.2.2.2.2.1⟩

/-- Counterexample to C6 as stated: invoked with a nil request, CanI and
ClientCmdConfig do not fail with a BadRequest condition; they
dereference the nil request, a runtime panic. -/
theorem nil_request_cex :
    CanI baseEnv none = RunResult.panic ∧
    ClientCmdConfig baseEnv none = RunResult.panic ∧
    (∀ b, CanI baseEnv none ≠ RunResult.ok b) :=
  ⟨rfl, rfl, fun _ h => RunResult.noConfusion h⟩

theorem hasPrefStr_append (p t : String) : hasPrefStr p (p ++ t) = true := by
  unfold hasPrefStr
  rw [String.data_append]
  exact List.isPrefixOf_iff_prefix.mpr (List.prefix_append _ _)

theorem dropStr_append (p t : String) : dropStr (p ++ t) p.length = t := by
  apply String.ext
  show ((p ++ t).data).drop p.length = t.data
  rw [String.data_append, strLength_data]
  exact List.drop_left _ _

theorem extractTokenFromHeader_bearer (t : String) :
    extractTokenFromHeader ("Bearer " ++ t) = t := by
  unfold extractTokenFromHeader
  rw [hasPrefStr_append]
  simp only [if_true]
  exact dropStr_append "Bearer " t

theorem extractTokenFromHeader_not_bearer {s : String}
    (h : hasPrefStr "Bearer " s = false) : extractTokenFromHeader s = "" := by
  unfold extractTokenFromHeader
  rw [h]
  simp

/-- Unfolding of extractAuthInfo when a bearer token is present. -/
theorem extractAuthInfo_bearer_eq (E : Env) (req : Request)
    (hlen : 0 < (extractTokenFromHeader (headerParameter req "Authorization")).length) :
    extractAuthInfo E req = Except.ok (
      if 0 < (headerParameter req "Impersonate-User").length then
        { token := extractTokenFromHeader (headerParameter req "Authorization")
          impersonate := headerParameter req "Impersonate-User"
          impersonateGroups := headerValues req "Impersonate-Group"
          impersonateUserExtra := req.headers.filterMap (fun h =>
            if hasPrefStr ImpersonateUserExtraHeader h.1 then
              some (dropStr h.1 ImpersonateUserExtraHeader.length, h.2)
            else none) }
      else { token := extractTokenFromHeader (headerParameter req "Authorization") }) := by
  simp only [extractAuthInfo, if_pos hlen]

/-- Unfolding of extractAuthInfo when no bearer token is present. -/
theorem extractAuthInfo_no_bearer_eq (E : Env) (req : Request)
    (hlen : ¬ 0 < (extractTokenFromHeader (headerParameter req "Authorization")).length) :
    extractAuthInfo E req =
      match E.tokenManager with
      | some decrypt =>
          if 0 < (headerParameter req JWETokenHeader).length then
            decrypt (headerParameter req JWETokenHeader)
          else Except.error (NewUnauthorized MsgLoginUnauthorizedError)
      | none => Except.error (NewUnauthorized MsgLoginUnauthorizedError) := by
  simp only [extractAuthInfo, if_neg hlen]

/-- C4 (amended): with an Authorization header of the form "Bearer "
followed by a non-empty token, extraction returns a descriptor carrying
exactly that token, and the result does not depend on the token
decryption collaborator. -/
theorem extractAuthInfo_bearer (E E' : Env) (req : Request) (t : String)
    (hauth : headerParameter req "Authorization" = "Bearer " ++ t) (ht : t ≠ "") :
    (∃ info, extractAuthInfo E req = Except.ok info ∧ info.token = t) ∧
    extractAuthInfo E req =
      extractAuthInfo { E with tokenManager := E'.tokenManager } req := by
  have htok : extractTokenFromHeader (headerParameter req "Authorization") = t := by
    rw [hauth]
    exact extractTokenFromHeader_bearer t
  have hlen : 0 < (extractTokenFromHeader (headerParameter req "Authorization")).length := by
    rw [htok]
    exact (length_pos_iff t).mpr ht
  constructor
  · rw [extractAuthInfo_bearer_eq E req hlen]
    by_cases himp : 0 < (headerParameter req "Impersonate-User").length
    · rw [if_pos himp]
      exact ⟨_, rfl, htok⟩
    · rw [if_neg himp]
      exact ⟨_, rfl, htok⟩
  · rw [extractAuthInfo_bearer_eq E req hlen, extractAuthInfo_bearer_eq _ req hlen]

/-- Witness for C4 (amended): a request with Authorization "Bearer abc"
and a jweToken header yields the token abc, unaffected by removing the
decryption collaborator. -/
theorem extractAuthInfo_bearer_witness :
    (∃ info, extractAuthInfo envDecrypt reqBearerAbc = Except.ok info ∧ info.token = "abc") ∧
    extractAuthInfo envDecrypt reqBearerAbc =
      extractAuthInfo { envDecrypt with tokenManager := baseEnv.tokenManager } reqBearerAbc :=
  extractAuthInfo_bearer envDecrypt baseEnv reqBearerAbc "abc" (by decide) (by decide)

/-- Counterexample to C4 as stated: an Authorization header of exactly
"Bearer " starts with the bearer marker, yet extraction consults the
decryption collaborator and returns its descriptor, whose token zzz is
not the empty remainder after the marker. -/
theorem extractAuthInfo_bearer_cex :
    hasPrefStr "Bearer " (headerParameter reqBearerEmptyJwe "Authorization") = true ∧
    extractAuthInfo envDecrypt reqBearerEmptyJwe =
      Except.ok { token := "zzz", impersonate := "", impersonateGroups := [],
                  impersonateUserExtra := [] } ∧
    dropStr (headerParameter reqBearerEmptyJwe "Authorization") ("Bearer ".length) = "" ∧
    ("zzz" : String) ≠ "" := by decide

/-- C5: with no bearer-marked Authorization header, extraction fails
with the fixed Unauthorized login-required error when the opaque-token
path is unusable, and otherwise returns the collaborator's result for
the jweToken header unchanged. -/
theorem extractAuthInfo_fallback (E : Env) (req : Request)
    (hnb : hasPrefStr "Bearer " (headerParameter req "Authorization") = false) :
    ((E.tokenManager = none ∨ headerParameter req JWETokenHeader = "") →
      extractAuthInfo E req = Except.error (NewUnauthorized MsgLoginUnauthorizedError)) ∧
    (∀ decrypt, E.tokenManager = some decrypt →
      headerParameter req JWETokenHeader ≠ "" →
      extractAuthInfo E req = decrypt (headerParameter req JWETokenHeader)) := by
  have htok := extractTokenFromHeader_not_bearer hnb
  have hlen : ¬ 0 < (extractTokenFromHeader (headerParameter req "Authorization")).length := by
    rw [htok]
    decide
  rw [extractAuthInfo_no_bearer_eq E req hlen]
  constructor
  · intro hcase
    cases htm : E.tokenManager with
    | none => rfl
    | some d =>
      rcases hcase with hnone | hjwe
      · rw [htm] at hnone
        exact Option.noConfusion hnone
      · have : ¬ 0 < (headerParameter req JWETokenHeader).length := by
          rw [hjwe]
          decide
        simp only [if_neg this]
  · intro d htm hne
    rw [htm]
    simp only [if_pos ((length_pos_iff _).mpr hne)]

/-- Witness for C5: a request with no credential headers at all fails
with the fixed Unauthorized error. -/
theorem extractAuthInfo_fallback_witness :
    extractAuthInfo baseEnv { tls := false, headers := [] } =
      Except.error (NewUnauthorized MsgLoginUnauthorizedError) :=
  (extractAuthInfo_fallback baseEnv { tls := false, headers := [] } (by decide)).1
    (Or.inl rfl)

/-- C9: an Authorization header of exactly "Bearer " is treated as no
bearer credential, so extraction falls through to the opaque-token path
or fails Unauthorized; and every descriptor the header-extraction path
itself produces (no collaborator configured) has a non-empty token. -/
theorem extractAuthInfo_token_invariant (E : Env) (req : Request) :
    (headerParameter req "Authorization" = "Bearer " →
      ((∃ d, E.tokenManager = some d ∧ headerParameter req JWETokenHeader ≠ "" ∧
         extractAuthInfo E req = d (headerParameter req JWETokenHeader)) ∨
       extractAuthInfo E req = Except.error (NewUnauthorized MsgLoginUnauthorizedError))) ∧
    (E.tokenManager = none → ∀ info, extractAuthInfo E req = Except.ok info →
      info.token ≠ "") := by
  constructor
  · intro hauth
    have hlen : ¬ 0 < (extractTokenFromHeader (headerParameter req "Authorization")).length := by
      rw [hauth]
      decide
    rw [extractAuthInfo_no_bearer_eq E req hlen]
    cases htm : E.tokenManager with
    | none => exact Or.inr rfl
    | some d =>
      by_cases hj : headerParameter req JWETokenHeader = ""
      · refine Or.inr ?_
        have : ¬ 0 < (headerParameter req JWETokenHeader).length := by
          rw [hj]
          decide
        simp only [if_neg this]
      · exact Or.inl ⟨d, rfl, hj, by simp only [if_pos ((length_pos_iff _).mpr hj)]⟩
  · intro htm info hok
    by_cases hlen : 0 < (extractTokenFromHeader (headerParameter req "Authorization")).length
    · rw [extractAuthInfo_bearer_eq E req hlen] at hok
      have h3 := Except.ok.inj hok
      intro hc
      rw [← h3] at hc
      by_cases himp : 0 < (headerParameter req "Impersonate-User").length
      · rw [if_pos himp] at hc
        have hc2 : extractTokenFromHeader (headerParameter req "Authorization") = "" := hc
        rw [hc2] at hlen
        exact absurd hlen (by decide)
      · rw [if_neg himp] at hc
        have hc2 : extractTokenFromHeader (headerParameter req "Authorization") = "" := hc
        rw [hc2] at hlen
        exact absurd hlen (by decide)
    · rw [extractAuthInfo_no_bearer_eq E req hlen, htm] at hok
      exact Except.noConfusion hok

/-- Witness for C9: with Authorization exactly "Bearer " and no
collaborator, extraction does not produce a descriptor. -/
theorem extractAuthInfo_token_invariant_witness :
    (∃ d, baseEnv.tokenManager = some d ∧
       headerParameter reqBearerEmptyJwe JWETokenHeader ≠ "" ∧
       extractAuthInfo baseEnv reqBearerEmptyJwe =
         d (headerParameter reqBearerEmptyJwe JWETokenHeader)) ∨
    extractAuthInfo baseEnv reqBearerEmptyJwe =
      Except.error (NewUnauthorized MsgLoginUnauthorizedError) :=
  (extractAuthInfo_token_invariant baseEnv reqBearerEmptyJwe).1 (by decide)

theorem hasPrefStr_exists {p s : String} (h : hasPrefStr p s = true) :
    ∃ r, s.data = p.data ++ r := by
  obtain ⟨r, hr⟩ := List.isPrefixOf_iff_prefix.mp h
  exact ⟨r, hr.symm⟩

theorem pref_drop_inj {p m n : String} (hm : hasPrefStr p m = true)
    (hn : hasPrefStr p n = true)
    (h : dropStr m p.length = dropStr n p.length) : m = n := by
  obtain ⟨r, hr⟩ := hasPrefStr_exists hm
  obtain ⟨r2, hr2⟩ := hasPrefStr_exists hn
  have h1 : (dropStr m p.length).data = r := by
    show m.data.drop p.length = r
    rw [hr, strLength_data]
    exact List.drop_left _ _
  have h2 : (dropStr n p.length).data = r2 := by
    show n.data.drop p.length = r2
    rw [hr2, strLength_data]
    exact List.drop_left _ _
  apply String.ext
  rw [hr, hr2]
  rw [← h1, ← h2, h]

theorem headerLookup_cons (name n : String) (vs : List String)
    (rest : List (String × List String)) :
    headerLookup name ((n, vs) :: rest) =
      if n = name then some vs else headerLookup name rest := rfl

/-- Looking up the suffix key in the filter-mapped extra header list
finds the matching header's value list, provided the header names are
unique as they are in a Go header map. -/
theorem headerLookup_filterMap_extra (pfx : String) (l : List (String × List String))
    (n : String) (vs : List String)
    (hnd : (l.map Prod.fst).Nodup) (hmem : (n, vs) ∈ l) (hpf : hasPrefStr pfx n = true) :
    headerLookup (dropStr n pfx.length)
      (l.filterMap (fun h =>
        if hasPrefStr pfx h.1 then some (dropStr h.1 pfx.length, h.2) else none)) =
      some vs := by
  induction l with
  | nil => exact absurd hmem (List.not_mem_nil _)
  | cons hd tl ih =>
    rw [List.map_cons, List.nodup_cons] at hnd
    rcases List.mem_cons.mp hmem with heq | hmem2
    · subst heq
      have hfa : (fun (h : String × List String) =>
          if hasPrefStr pfx h.1 then some (dropStr h.1 pfx.length, h.2) else none) (n, vs) =
          some (dropStr n pfx.length, vs) := by
        simp [hpf]
      rw [@List.filterMap_cons_some _ _
        (fun (h : String × List String) =>
          if hasPrefStr pfx h.1 then some (dropStr h.1 pfx.length, h.2) else none)
        (n, vs) tl (dropStr n pfx.length, vs) hfa]
      rw [headerLookup_cons, if_pos rfl]
    · have hne : hd.1 ≠ n := by
        intro he
        exact hnd.1 (he ▸ List.mem_map_of_mem Prod.fst hmem2)
      cases hf : hasPrefStr pfx hd.1 with
      | false =>
        have hfa : (fun (h : String × List String) =>
            if hasPrefStr pfx h.1 then some (dropStr h.1 pfx.length, h.2) else none) hd =
            none := by
          simp [hf]
        rw [@List.filterMap_cons_none _ _
          (fun (h : String × List String) =>
            if hasPrefStr pfx h.1 then some (dropStr h.1 pfx.length, h.2) else none)
          hd tl hfa]
        exact ih hnd.2 hmem2
      | true =>
        have hfa : (fun (h : String × List String) =>
            if hasPrefStr pfx h.1 then some (dropStr h.1 pfx.length, h.2) else none) hd =
            some (dropStr hd.1 pfx.length, hd.2) := by
          simp [hf]
        have hkey : dropStr hd.1 pfx.length ≠ dropStr n pfx.length :=
          fun hk => hne (pref_drop_inj hf hpf hk)
        rw [@List.filterMap_cons_some _ _
          (fun (h : String × List String) =>
            if hasPrefStr pfx h.1 then some (dropStr h.1 pfx.length, h.2) else none)
          hd tl (dropStr hd.1 pfx.length, hd.2) hfa]
        rw [headerLookup_cons, if_neg hkey]
        exact ih hnd.2 hmem2

/-- C3: with a bearer token and an Impersonate-User header the extracted
descriptor carries that user, exactly the Impersonate-Group values in
order, and for every header starting with the impersonation-extra marker
an entry keyed by the suffix holding the header's full value list; with
a bearer token and no Impersonate-User header all impersonation fields
are empty. -/
theorem extractAuthInfo_impersonation (E : Env) (req : Request) (t : String)
    (hnd : (req.headers.map Prod.fst).Nodup)
    (htok : extractTokenFromHeader (headerParameter req "Authorization") = t)
    (ht : t ≠ "") :
    ((headerParameter req "Impersonate-User") ≠ "" →
      ∃ info, extractAuthInfo E req = Except.ok info ∧
        info.token = t ∧
        info.impersonate = headerParameter req "Impersonate-User" ∧
        info.impersonateGroups = headerValues req "Impersonate-Group" ∧
        (∀ n vs, (n, vs) ∈ req.headers →
          hasPrefStr ImpersonateUserExtraHeader n = true →
          headerLookup (dropStr n ImpersonateUserExtraHeader.length)
            info.impersonateUserExtra = some vs)) ∧
    ((headerParameter req "Impersonate-User") = "" →
      extractAuthInfo E req =
        Except.ok { token := t, impersonate := "", impersonateGroups := [],
                    impersonateUserExtra := [] }) := by
  have hlen : 0 < (extractTokenFromHeader (headerParameter req "Authorization")).length := by
    rw [htok]
    exact (length_pos_iff t).mpr ht
  rw [extractAuthInfo_bearer_eq E req hlen]
  constructor
  · intro himp
    rw [if_pos ((length_pos_iff _).mpr himp)]
    refine ⟨_, rfl, htok, rfl, rfl, ?_⟩
    intro n vs hmem hpf
    exact headerLookup_filterMap_extra ImpersonateUserExtraHeader req.headers n vs hnd hmem hpf
  · intro himp
    have hni : ¬ 0 < (headerParameter req "Impersonate-User").length := by
      rw [himp]
      decide
    rw [if_neg hni, htok]

/-- Witness for C3: the spec's example request with user alice, two
groups and a doubled Impersonate-Extra-reason header. -/
theorem extractAuthInfo_impersonation_witness :
    ∃ info, extractAuthInfo baseEnv reqImpersonate = Except.ok info ∧
      info.token = "abc" ∧
      info.impersonate = headerParameter reqImpersonate "Impersonate-User" ∧
      info.impersonateGroups = headerValues reqImpersonate "Impersonate-Group" ∧
      (∀ n vs, (n, vs) ∈ reqImpersonate.headers →
        hasPrefStr ImpersonateUserExtraHeader n = true →
        headerLookup (dropStr n ImpersonateUserExtraHeader.length)
          info.impersonateUserExtra = some vs) :=
  (extractAuthInfo_impersonation baseEnv reqImpersonate "abc"
    (by decide) (by decide) (by decide)).1 (by decide)

theorem data_ne {s : String} (h : s ≠ "") : s.data ≠ [] := by
  intro hd
  apply h
  apply String.ext
  rw [hd]

theorem takeWhile_append_stop {p : Char → Bool} {l : List Char} (x : Char) (r : List Char)
    (hl : ∀ y ∈ l, p y = true) (hx : p x = false) :
    (l ++ x :: r).takeWhile p = l ∧ (l ++ x :: r).dropWhile p = x :: r := by
  induction l with
  | nil =>
    constructor
    · rw [List.nil_append, List.takeWhile_cons, hx]
      simp
    · rw [List.nil_append, List.dropWhile_cons, hx]
      simp
  | cons a as ih =>
    have ha := hl a (List.mem_cons_self a as)
    have h2 : ∀ y ∈ as, p y = true := fun y hy => hl y (List.mem_cons_of_mem a hy)
    obtain ⟨ih1, ih2⟩ := ih h2
    constructor
    · rw [List.cons_append, List.takeWhile_cons, ha]
      simp [ih1]
    · rw [List.cons_append, List.dropWhile_cons, ha]
      simp [ih2]

theorem segName_step (k : Nat) (l r : List Char)
    (hl : ∀ y ∈ l, isW y = true) (hne : l ≠ []) :
    segName (k + 1) (l ++ ':' :: r) = segName k r := by
  obtain ⟨h1, h2⟩ := takeWhile_append_stop ':' r hl (by decide)
  have hie : l.isEmpty = false := List.isEmpty_eq_false.mpr hne
  simp [segName, h1, h2, hie]

theorem segName_zero (l : List Char) (hl : ∀ y ∈ l, isW y = true) (hne : l ≠ []) :
    segName 0 l = some l := by
  have h1 : l.takeWhile isW = l := List.takeWhile_eq_self_iff.mpr hl
  have hie : l.isEmpty = false := List.isEmpty_eq_false.mpr hne
  simp [segName, h1, hie]

/-- On a whole string of the exact four-segment shape, the search finds
the fourth segment. -/
theorem getUsername_four (a b c d : String)
    (ha : a ≠ "") (hb : b ≠ "") (hc : c ≠ "") (hd : d ≠ "")
    (hwa : ∀ ch ∈ a.data, isW ch = true) (hwb : ∀ ch ∈ b.data, isW ch = true)
    (hwc : ∀ ch ∈ c.data, isW ch = true) (hwd : ∀ ch ∈ d.data, isW ch = true) :
    getUsername (a ++ ":" ++ b ++ ":" ++ c ++ ":" ++ d) = d := by
  have hcolon : (":" : String).data = [':'] := rfl
  have hdata : (a ++ ":" ++ b ++ ":" ++ c ++ ":" ++ d).data =
      a.data ++ ':' :: (b.data ++ ':' :: (c.data ++ ':' :: d.data)) := by
    simp [String.data_append, hcolon, List.append_assoc]
  have hseg : segName 3 (a.data ++ ':' :: (b.data ++ ':' :: (c.data ++ ':' :: d.data))) =
      some d.data := by
    rw [segName_step 2 a.data _ hwa (data_ne ha),
        segName_step 1 b.data _ hwb (data_ne hb),
        segName_step 0 c.data _ hwc (data_ne hc),
        segName_zero d.data hwd (data_ne hd)]
  obtain ⟨x, xs, hx⟩ := List.exists_cons_of_ne_nil (data_ne ha)
  have hfind : findMatch (a.data ++ ':' :: (b.data ++ ':' :: (c.data ++ ':' :: d.data))) =
      some d.data := by
    rw [hx, List.cons_append] at hseg ⊢
    simp [findMatch, hseg]
  unfold getUsername
  rw [hdata, hfind]

theorem segName_none {k : Nat} {cs : List Char} (h : ':' ∉ cs) :
    segName (k + 1) cs = none := by
  cases hdw : cs.dropWhile isW with
  | nil =>
    by_cases hie : (cs.takeWhile isW).isEmpty
    · simp [segName, hie]
    · simp [segName, hdw, hie]
  | cons x rest =>
    have hxcs : x ∈ cs := by
      have hsuf := List.dropWhile_suffix (l := cs) isW
      rw [hdw] at hsuf
      exact hsuf.subset (List.mem_cons_self x rest)
    have hx : x ≠ ':' := fun he => h (he ▸ hxcs)
    by_cases hie : (cs.takeWhile isW).isEmpty
    · simp [segName, hie]
    · simp [segName, hdw, hie, hx]

theorem findMatch_no_colon {cs : List Char} (h : ':' ∉ cs) : findMatch cs = none := by
  induction cs with
  | nil => rfl
  | cons x rest ih =>
    have h2 : ':' ∉ rest := fun hr => h (List.mem_cons_of_mem x hr)
    have hseg : segName 3 (x :: rest) = none := segName_none h
    simp [findMatch, hseg, ih h2]

/-- C7: an input of the four-segment colon-separated shape yields its
fourth segment as display name, and an input containing no colon at all
cannot match the pattern and is returned verbatim. -/
theorem getUsername_spec :
    (∀ a b c d : String, a ≠ "" → b ≠ "" → c ≠ "" → d ≠ "" →
      (∀ ch ∈ a.data, isW ch = true) → (∀ ch ∈ b.data, isW ch = true) →
      (∀ ch ∈ c.data, isW ch = true) → (∀ ch ∈ d.data, isW ch = true) →
      getUsername (a ++ ":" ++ b ++ ":" ++ c ++ ":" ++ d) = d) ∧
    (∀ s : String, ':' ∉ s.data → getUsername s = s) := by
  constructor
  · exact getUsername_four
  · intro s hs
    unfold getUsername
    rw [findMatch_no_colon hs]

/-- Witness for C7: the spec's two examples, the structured service
account name and a plain name without colons. -/
theorem getUsername_spec_witness :
    getUsername ("system" ++ ":" ++ "serviceaccount" ++ ":" ++ "kube-system" ++ ":" ++
      "dashboard") = "dashboard" ∧
    getUsername "plain-name" = "plain-name" :=
  ⟨getUsername_spec.1 "system" "serviceaccount" "kube-system" "dashboard"
      (by decide) (by decide) (by decide) (by decide)
      (by decide) (by decide) (by decide) (by decide),
   getUsername_spec.2 "plain-name" (by decide)⟩

/-- C8: when the server-version probe is denied with Forbidden, the
username derived from the error text is returned together with the
error; when the probe succeeds and the token self-review is denied with
Forbidden, the derived username is returned with no error; any other
error from either call is returned with an empty username. -/
theorem HasAccess_spec (E : Env) (authInfo : AuthInfo) (cfg cfg2 : RestConfig)
    (h1 : buildConfigFromFlags E = Except.ok cfg)
    (h2 : E.clientConfig (buildCmdConfig authInfo cfg) = Except.ok cfg2)
    (h3 : E.newForConfig cfg2 = Except.ok ()) :
    (∀ e, E.serverVersion cfg2 = Except.error e → e.isForbidden = true →
      HasAccess E authInfo = (getUsernameFromError e.message, some e)) ∧
    (∀ e, E.serverVersion cfg2 = Except.error e → e.isForbidden = false →
      HasAccess E authInfo = ("", some e)) ∧
    (∀ e, E.serverVersion cfg2 = Except.ok () →
      E.tokenReview cfg2 authInfo.token = Except.error e → e.isForbidden = true →
      HasAccess E authInfo = (getUsernameFromError e.message, none)) ∧
    (∀ e, E.serverVersion cfg2 = Except.ok () →
      E.tokenReview cfg2 authInfo.token = Except.error e → e.isForbidden = false →
      HasAccess E authInfo = ("", some e)) := by
  refine ⟨?_, ?_, ?_, ?_⟩
  · intro e hsv hf
    simp only [HasAccess, h1, h2, h3, hsv, hf, if_true]
  · intro e hsv hf
    simp only [HasAccess, h1, h2, h3, hsv, hf, Bool.false_eq_true, if_false]
  · intro e hsv htr hf
    simp only [HasAccess, h1, h2, h3, hsv, htr, hf, if_true]
  · intro e hsv htr hf
    simp only [HasAccess, h1, h2, h3, hsv, htr, hf, Bool.false_eq_true, if_false]

/-- Witness for C8: a Forbidden server-version probe returns the derived
username alongside the error. -/
theorem HasAccess_spec_witness :
    HasAccess envForbidden { token := "tok" } =
      (getUsernameFromError errForbidden.message, some errForbidden) :=
  (HasAccess_spec envForbidden { token := "tok" } emptyRestConfig emptyRestConfig
    (by decide) (by decide) (by decide)).1 errForbidden rfl rfl

/-- C10: a request with a non-bearer Authorization header and no
jweToken header passes the lightweight existence check but fails full
extraction, so with login enabled and skip-login allowed it is routed to
secure mode and every resolve operation fails with the Unauthorized
error instead of falling back to the insecure singleton. -/
theorem containsAuthInfo_extract_divergence :
    containsAuthInfo reqBasic = true ∧
    extractAuthInfo envSkip reqBasic =
      Except.error (NewUnauthorized MsgLoginUnauthorizedError) ∧
    isLoginEnabled envSkip reqBasic = true ∧
    envSkip.enableSkipLogin = true ∧
    isSecureModeEnabled envSkip reqBasic = true ∧
    Client envSkip (some reqBasic) =
      Except.error (NewUnauthorized MsgLoginUnauthorizedError) ∧
    APIExtensionsClient envSkip (some reqBasic) =
      Except.error (NewUnauthorized MsgLoginUnauthorizedError) ∧
    PluginClient envSkip (some reqBasic) =
      Except.error (NewUnauthorized MsgLoginUnauthorizedError) ∧
    Config envSkip (some reqBasic) =
      Except.error (NewUnauthorized MsgLoginUnauthorizedError) ∧
    VerberClient envSkip (some reqBasic) =
      Except.error (NewUnauthorized MsgLoginUnauthorizedError) := by
  decide

end Dashboard
